import Mathlib

/-!
Verification of the PhysioFit fitting engine against its specification.

The development shallowly embeds the two core source files:
`physiofit/models/model_1.py` (the `DegAndLag` kinetic model) and
`physiofit/base/fitter.py` (the `PhysioFitter` engine).  Numpy arrays are
lists of exact reals, matrices are lists of rows unless a definition says
otherwise, a missing (NaN) experimental cell is `Option.none`, raised Python
exceptions are `Except.error`, and the floating `np.exp` is an explicit
function argument `rexp` so that every formula keeps its source shape.
External collaborators that the engine only calls through a functional
interface (the scipy optimizers, `scipy.stats.chi2.cdf`, the polymorphic
model's `simulate`) are passed in as explicit function arguments.
-/

namespace PhysioFit

/-- Matrices are lists of rows. -/
abbrev Mat := List (List ℝ)

/-- Row-lengths profile of a nested list, the numpy shape. -/
def shapeOf {α : Type} (m : List (List α)) : List ℕ := m.map List.length

/-- Cell access `m[i, j]` on a real matrix, 0 outside the matrix. -/
def getRCell (m : Mat) (i j : ℕ) : ℝ := (m.getD i []).getD j 0

/-- Cell access `m[i, j]` on the experimental matrix, `none` is a NaN cell. -/
def getECell (m : List (List (Option ℝ))) (i j : ℕ) : Option ℝ :=
  (m.getD i []).getD j none

/-- Cell update `m[i, j] = v` on the experimental matrix. -/
def setECell (m : List (List (Option ℝ))) (i j : ℕ) (v : Option ℝ) :
    List (List (Option ℝ)) :=
  m.set i ((m.getD i []).set j v)

/-- Python dict assignment `d[k] = v` on an insertion-ordered mapping. -/
def dictUpdate {β : Type} (d : List (String × β)) (k : String) (v : β) :
    List (String × β) :=
  if (d.map Prod.fst).contains k then
    d.map (fun kv => if kv.1 = k then (k, v) else kv)
  else d ++ [(k, v)]

/-- Python dict lookup `d[k]`, with a default instead of `KeyError`. -/
def lookupD {β : Type} (d : List (String × β)) (k : String) (dft : β) : β :=
  match d.find? (fun kv => kv.1 == k) with
  | some kv => kv.2
  | none => dft

/-! ### The `DegAndLag` model (`models/model_1.py`) -/

/-- Python `len(np.nonzero(v))` for a 1-D `v`: `np.nonzero` returns a tuple
holding one index array per dimension, so its `len` is the constant 1,
whatever the number of matching entries. -/
def nonzeroTupleLen : ℕ := 1

/-- The index array inside the tuple `np.nonzero(time_vector < t_lag)`:
the positions of the time points strictly below the lag. -/
noncomputable def subLagIdxFrom (tlag : ℝ) : List ℝ → ℕ → List ℕ
  | [], _ => []
  | t :: ts, j =>
      if t < tlag then j :: subLagIdxFrom tlag ts (j + 1)
      else subLagIdxFrom tlag ts (j + 1)

/-- `idx[0]` for `idx = np.nonzero(time_vector < t_lag)`. -/
noncomputable def subLagIdx (time : List ℝ) (tlag : ℝ) : List ℕ :=
  subLagIdxFrom tlag time 0

/-- Biomass column of `DegAndLag.simulate`: `np.full((len(idx) - 1,), x_0)`
concatenated with `x_0 * np.exp(mu * (time_vector[len(idx) - 1:] - t_lag))`.
Because `len(idx)` is the tuple length 1, the flat prefix is empty and the
exponential branch covers the whole time vector. -/
def biomassColumn (rexp : ℝ → ℝ) (x0 mu tlag : ℝ) (time : List ℝ) : List ℝ :=
  List.replicate (nonzeroTupleLen - 1) x0 ++
    (time.drop (nonzeroTupleLen - 1)).map (fun t => x0 * rexp (mu * (t - tlag)))

/-- `k = params_non_opti[idx]`: fancy indexing of the degradation array by the
sub-lag index array; `none` models numpy's IndexError on an out-of-range
index. -/
noncomputable def kSlice (deg time : List ℝ) (tlag : ℝ) : Option (List ℝ) :=
  let idxs := subLagIdx time tlag
  if ∀ j ∈ idxs, j < deg.length then some (idxs.map (fun j => deg.getD j 0))
  else none

/-- Elementwise combination of two 1-D arrays under numpy broadcasting: equal
lengths combine pointwise, a length-1 array stretches, any other pair of
lengths is a shape error (`none`). -/
def npBroadcast (f : ℝ → ℝ → ℝ) (a b : List ℝ) : Option (List ℝ) :=
  if a.length = b.length then some (List.zipWith f a b)
  else if a.length = 1 then some (b.map (fun y => f a.headI y))
  else if b.length = 1 then some (a.map (fun x => f x b.headI))
  else none

/-- One metabolite column of `DegAndLag.simulate`:
`np.full((len(idx) - 1,), m_0)` (empty, as for biomass) concatenated with
`q * (x_0/(mu + k)) * (np.exp(mu*(tv - t_lag)) - np.exp(-k*(tv - t_lag)))
 + m_0 * np.exp(-k*tv)`, the `(p,)`-shaped `k` broadcasting against the
`(n,)`-shaped time vector. -/
noncomputable def metaboliteColumn (rexp : ℝ → ℝ) (x0 mu tlag q m0 : ℝ)
    (kvec time : List ℝ) : Option (List ℝ) :=
  (npBroadcast (fun k t =>
      q * (x0 / (mu + k)) *
          (rexp (mu * (t - tlag)) - rexp (-(k * (t - tlag)))) +
        m0 * rexp (-(k * t))) kvec time).map
    (fun mult => List.replicate (nonzeroTupleLen - 1) m0 ++ mult)

/-- Assignment `simulated_matrix[:, i] = v`: the lengths must agree, a
length-1 vector broadcasts down the column, anything else is a shape
error. -/
def fitColumn (nrows : ℕ) (v : List ℝ) : Option (List ℝ) :=
  if v.length = nrows then some v
  else if v.length = 1 then some (List.replicate nrows v.headI)
  else none

/-- The metabolite loop `for i in range(1, int(len(params_opti) / 2))`, with
`q = params_opti[i * 2 + 1]` and `m_0 = params_opti[i * 2 + 2]`; an index past
the end of the parameter list is an IndexError (`none`). -/
noncomputable def metaboliteColumns (rexp : ℝ → ℝ) (params : List ℝ)
    (kvec time : List ℝ) (nrows : ℕ) : Option (List (List ℝ)) :=
  (List.range (params.length / 2 - 1)).mapM (fun i0 =>
    let i := i0 + 1
    if 2 * i + 2 < params.length then
      (metaboliteColumn rexp (params.getD 0 0) (params.getD 1 0)
          (params.getD 2 0) (params.getD (2 * i + 1) 0)
          (params.getD (2 * i + 2) 0) kvec time).bind (fitColumn nrows)
    else none)

/-- `DegAndLag.simulate` from `models/model_1.py`, over exact reals with the
exponential passed explicitly.  The output is the list of columns assigned
into `simulated_matrix` (biomass first, then one column per metabolite); the
data matrix contributes only its shape, through `np.empty_like`.  `none`
models a raised numpy error; a column count other than the number of assigned
columns is also rejected, since missing columns raise on assignment and extra
columns would keep uninitialized `np.empty_like` memory. -/
noncomputable def DegAndLagSimulate (rexp : ℝ → ℝ) (params : List ℝ)
    (dataMatrix : Mat) (time deg : List ℝ) : Option (List (List ℝ)) :=
  let nrows := dataMatrix.length
  let ncols := dataMatrix.headI.length
  if params.length < 3 then none
  else if ncols ≠ max 1 (params.length / 2) then none
  else
    (fitColumn nrows (biomassColumn rexp (params.getD 0 0) (params.getD 1 0)
        (params.getD 2 0) time)).bind (fun biom =>
      if params.length / 2 - 1 = 0 then some [biom]
      else
        (kSlice deg time (params.getD 2 0)).bind (fun kvec =>
          (metaboliteColumns rexp params kvec time nrows).map
            (fun mets => biom :: mets)))

/-- `DegAndLag.get_params`: the ordered `parameters_to_estimate` list, the
three scalars followed, for each metabolite, by `{m}_M0` then `{m}_q`. -/
def parametersToEstimate (metabolites : List String) : List String :=
  ["X_0", "mu", "t_lag"] ++
    metabolites.flatMap (fun m => [m ++ "_M0", m ++ "_q"])

/-- `DegAndLag.get_params`: the bounds mapping, in insertion order. -/
noncomputable def degAndLagBounds (tmax : ℝ) (metabolites : List String) :
    List (String × ℝ × ℝ) :=
  [("X_0", 1e-3, 10), ("mu", 1e-3, 3), ("t_lag", 0, 0.5 * tmax)] ++
    metabolites.flatMap (fun m => [(m ++ "_M0", 1e-6, 50), (m ++ "_q", -50, 50)])

/-! ### Cost function (`PhysioFitter._calculate_cost`) -/

/-- Residual of one cell of `np.square((simulated - experimental) / sd)`: a
missing experimental value gives a NaN residual, which `np.nansum` drops, so
the cell contributes zero. -/
noncomputable def cellCost (s : ℝ) (e : Option ℝ) (sd : ℝ) : ℝ :=
  match e with
  | none => 0
  | some ev => ((s - ev) / sd) ^ 2

/-- `np.nansum` of the residuals of one row. -/
noncomputable def rowCost : List ℝ → List (Option ℝ) → List ℝ → ℝ
  | s :: ss, e :: es, d :: ds => cellCost s e d + rowCost ss es ds
  | _, _, _ => 0

/-- The reduction in `PhysioFitter._calculate_cost`:
`np.nansum(np.square((simulated_matrix - exp_data_matrix) / sd_matrix))`,
taking the already simulated matrix. -/
noncomputable def calculateCost : Mat → List (List (Option ℝ)) → Mat → ℝ
  | srow :: ss, erow :: es, drow :: ds =>
      rowCost srow erow drow + calculateCost ss es ds
  | _, _, _ => 0

/-- The cost formula as the specification words it: the sum, over the cells
whose experimental value is not missing, of
`((simulated - experimental) / sd)^2`.  Stated independently of
`calculateCost` to be compared with it. -/
noncomputable def costSpec (sim : Mat) (emat : List (List (Option ℝ)))
    (sdm : Mat) : ℝ :=
  ∑ i in Finset.range emat.length,
    ∑ j in Finset.range (emat.getD i []).length,
      match getECell emat i j with
      | none => 0
      | some ev => ((getRCell sim i j - ev) / getRCell sdm i j) ^ 2

/-- `np.count_nonzero(~np.isnan(experimental_matrix))`. -/
def countNonMissing (emat : List (List (Option ℝ))) : ℕ :=
  (emat.map (fun row => (row.filter (fun c => c.isSome)).length)).sum

/-! ### Numpy aggregation used by the Monte-Carlo resampler -/

/-- Sorting as numpy's percentile machinery does before interpolating. -/
noncomputable def npSort (xs : List ℝ) : List ℝ := List.insertionSort (· ≤ ·) xs

/-- `np.percentile(xs, q)` with the default linear interpolation. -/
noncomputable def npPercentile (q : ℝ) (xs : List ℝ) : ℝ :=
  let s := npSort xs
  let pos : ℝ := q / 100 * ((xs.length : ℝ) - 1)
  let f : ℕ := (Int.floor pos).toNat
  let lo := s.getD f 0
  let hi := s.getD (f + 1) lo
  lo + (pos - (f : ℝ)) * (hi - lo)

/-- `np.mean`. -/
noncomputable def npMean (xs : List ℝ) : ℝ := xs.sum / xs.length

/-- `np.std`, the population standard deviation. -/
noncomputable def npStd (xs : List ℝ) : ℝ :=
  Real.sqrt (npMean (xs.map (fun x => (x - npMean xs) ^ 2)))

/-- `np.median`. -/
noncomputable def npMedian (xs : List ℝ) : ℝ := npPercentile 50 xs

/-- `np.<stat>(np.array(rows), 0)`: a statistic applied down each column of a
stack of equally long vectors. -/
noncomputable def axis0 (f : List ℝ → ℝ) (rows : List (List ℝ)) : List ℝ :=
  (List.range rows.headI.length).map (fun j => f (rows.map (fun r => r.getD j 0)))

/-- `np.percentile(np.array(mats), q, axis=0)`: the per-cell percentile across
a stack of equally shaped matrices. -/
noncomputable def percentileAxis0 (q : ℝ) (mats : List Mat) : Mat :=
  (List.range mats.headI.length).map (fun i =>
    (List.range (mats.headI.getD i []).length).map (fun j =>
      npPercentile q (mats.map (fun mM => (mM.getD i []).getD j 0))))

/-! ### The fitter state and its methods (`base/fitter.py`) -/

/-- A `scipy.optimize` result, reduced to the field the fitter reads. -/
structure OptRes where
  x : List ℝ

/-- The kinds of Python exception the embedded fitter code raises. -/
inductive PyError
  | runtimeError (msg : String)
  | attributeError (msg : String)
  | keyError (msg : String)
  | valueError (msg : String)
deriving DecidableEq

/-- The `PhysioFitter` fields the verified methods touch. -/
structure FitterState where
  experimentalMatrix : List (List (Option ℝ))
  timeVector : List ℝ
  degVector : List ℝ
  params : List ℝ
  sd : Mat
  optimizeResults : Option OptRes
  simulatedMatrix : Option Mat
  parameterStats : List (String × List ℝ)
  matricesCI : Option (Mat × Mat)

/-- The body of the Monte-Carlo loop: each iteration re-optimizes against its
noisy matrix with the previous iteration's result as seed (`opt_res` is
overwritten on every pass), and records the re-optimized parameters together
with the matrix re-simulated from them. -/
def mcLoop (optL : List ℝ → Mat → OptRes) (simF : List ℝ → Mat → Mat) :
    OptRes → List Mat → List (OptRes × Mat)
  | _, [] => []
  | res, nm :: rest =>
      let res2 := optL res.x nm
      (res2, simF res2.x nm) :: mcLoop optL simF res2 rest

/-- `PhysioFitter._compute_parameter_stats`: per-parameter mean, standard
deviation, median and 2.5/97.5 percentiles, merged into `parameter_stats` by
`dict.update`. -/
noncomputable def computeParameterStats (opts : List (List ℝ))
    (stats : List (String × List ℝ)) : List (String × List ℝ) :=
  dictUpdate (dictUpdate (dictUpdate (dictUpdate (dictUpdate stats
    "mean" (axis0 npMean opts))
    "sd" (axis0 npStd opts))
    "median" (axis0 npMedian opts))
    "CI_2.5" (axis0 (npPercentile (5 / 2)) opts))
    "CI_97.5" (axis0 (npPercentile (195 / 2)) opts)

/-- `PhysioFitter.monte_carlo_analysis`, with the scipy local optimizer, the
model's `simulate` and the per-iteration noisy matrices passed explicitly
(the code draws one noisy matrix from `_apply_noise` on each pass). -/
noncomputable def monteCarloAnalysis (optL : List ℝ → Mat → OptRes)
    (simF : List ℝ → Mat → Mat) (noisyMats : List Mat) (st : FitterState) :
    Except PyError FitterState :=
  match st.optimizeResults with
  | none => .error (.runtimeError
      ("Running Monte Carlo simulation without having run the " ++
       "optimization is impossible as best fit results are needed to " ++
       "generate the initial simulated matrix"))
  | some res =>
      let recs := mcLoop optL simF res noisyMats
      let matrices := recs.map (fun r => r.2)
      let optParamsList := recs.map (fun r => r.1.x)
      .ok { st with
        matricesCI := some (percentileAxis0 (5 / 2) matrices,
          percentileAxis0 (195 / 2) matrices),
        parameterStats := computeParameterStats optParamsList st.parameterStats }

/-- The scalar results `khi2_test` assembles. -/
structure Khi2Res where
  khi2Value : ℝ
  numberOfMeasurements : ℕ
  numberOfParams : ℕ
  degreesOfFreedom : ℤ
  pVal : ℝ

/-- `PhysioFitter.khi2_test`, with the model's `simulate` (closed over the
experimental matrix, time vector and degradation constants, as the call
passes them from the state) and `scipy.stats.chi2.cdf` passed explicitly.
The method has no precondition check: a missing optimization result surfaces
as the AttributeError of `self.optimize_results.x`, and the p-value is
computed by `chi2.cdf` whatever the degrees of freedom. -/
noncomputable def khi2Test (chi2cdf : ℝ → ℤ → ℝ) (simF : List ℝ → Mat)
    (st : FitterState) : Except PyError Khi2Res :=
  let m := countNonMissing st.experimentalMatrix
  let p := st.params.length
  let dof : ℤ := (m : ℤ) - (p : ℤ)
  match st.optimizeResults with
  | none => .error (.attributeError "NoneType object has no attribute x")
  | some res =>
      let cost := calculateCost (simF res.x) st.experimentalMatrix st.sd
      .ok { khi2Value := cost, numberOfMeasurements := m, numberOfParams := p,
            degreesOfFreedom := dof, pVal := chi2cdf cost dof }

/-! ### SD matrix construction (`initialize_sd_matrix`, default branch) -/

/-- The default sd specification built when `sd is None`: the dict `{"X": 0.2}`
then `0.5` for every data column from the third on (the data sheet holds the
time column, then the biomass column, then the metabolites). -/
noncomputable def defaultSdDict (dataColumns : List String) : List (String × ℝ) :=
  (dataColumns.drop 2).foldl (fun d c => dictUpdate d c 0.5) [("X", 0.2)]

/-- `PhysioFitter._sd_dict_to_matrix` on a dict of scalars (the only shape the
default branch produces): both key checks in source order, then the sd values
listed in `name_vector` order. -/
def sdDictToMatrix (d : List (String × ℝ)) (nameVector : List String) :
    Except PyError (List ℝ) :=
  match (d.map Prod.fst).find? (fun k => !(nameVector.contains k)) with
  | some k => .error (.keyError ("The key " ++ k ++
      " is not part of the data headers"))
  | none =>
      match nameVector.find? (fun n => !((d.map Prod.fst).contains n)) with
      | some n => .error (.keyError ("The key " ++ n ++
          " is missing from the sds dict"))
      | none => .ok (nameVector.map (fun n => lookupD d n 0))

/-- `initialize_sd_matrix` on the `sd is None` path: the default dict is
built, `_sd_dict_to_matrix` turns it into a 1-D vector, whose 1-D shape never
equals the 2-D experimental shape, so `_build_sd_matrix` checks the length
against the column count (`sd vector not of right size`) and `np.tile`s the
vector down the rows. -/
noncomputable def initializeSdMatrixDefault (dataColumns nameVector : List String)
    (nrows ncols : ℕ) : Except PyError Mat :=
  (sdDictToMatrix (defaultSdDict dataColumns) nameVector).bind (fun v =>
    if v.length = ncols then .ok (List.replicate nrows v)
    else .error (.valueError "sd vector not of right size"))

/-! ### Concrete instances used to evaluate the fitter at specific inputs -/

/-- A local optimizer whose result depends on its seed, as a quasi-Newton
descent seeded from a previous result does. -/
noncomputable def mcSeedOpt : List ℝ → Mat → OptRes :=
  fun s m => ⟨[s.headI + m.headI.headI]⟩

/-- A local optimizer whose result ignores its seed. -/
noncomputable def mcSeedFree : List ℝ → Mat → OptRes :=
  fun _ m => ⟨[m.headI.headI]⟩

/-- A model simulate returning the parameter vector as a one-row matrix. -/
def mcSimFlat : List ℝ → Mat → Mat := fun p _ => [p]

/-- A model simulate with a constant output. -/
noncomputable def mcSimConst : List ℝ → Mat → Mat := fun _ _ => [[0]]

/-- A fitter state holding a primary optimization result. -/
noncomputable def mcSt : FitterState :=
  { experimentalMatrix := [], timeVector := [], degVector := [], params := [],
    sd := [], optimizeResults := some ⟨[0]⟩, simulatedMatrix := none,
    parameterStats := [("optimal", [0])], matricesCI := none }

/-- `mcSt` after a zero-iteration Monte-Carlo run. -/
noncomputable def mcStAfter : FitterState :=
  { experimentalMatrix := [], timeVector := [], degVector := [], params := [],
    sd := [], optimizeResults := some ⟨[0]⟩, simulatedMatrix := none,
    parameterStats := [("optimal", [0]), ("mean", []), ("sd", []),
      ("median", []), ("CI_2.5", []), ("CI_97.5", [])],
    matricesCI := some ([], []) }

/-- A constant stand-in for `scipy.stats.chi2.cdf`. -/
noncomputable def cdfConst : ℝ → ℤ → ℝ := fun _ _ => 37 / 100

/-- A constant model simulate for the goodness-of-fit call. -/
def simKFlat : List ℝ → Mat := fun _ => [[1]]

/-- A fitter state in which no primary fit has run. -/
noncomputable def stNoFit : FitterState :=
  { experimentalMatrix := [[some 1]], timeVector := [0], degVector := [],
    params := [0, 0, 0], sd := [[1]], optimizeResults := none,
    simulatedMatrix := none, parameterStats := [], matricesCI := none }

/-- A fitted state with 1 measurement and 3 parameters: degrees of freedom
1 - 3 = -2 ≤ 0, the degenerate case. -/
noncomputable def stDegenerate : FitterState :=
  { experimentalMatrix := [[some 1]], timeVector := [0], degVector := [],
    params := [0, 0, 0], sd := [[1]], optimizeResults := some ⟨[1]⟩,
    simulatedMatrix := none, parameterStats := [], matricesCI := none }

/-! ### Helper lemmas on the cost reduction -/

theorem rowCost_eq_sum (erow : List (Option ℝ)) (srow drow : List ℝ)
    (hs : srow.length = erow.length) (hd : drow.length = erow.length) :
    rowCost srow erow drow = ∑ j in Finset.range erow.length,
      (match erow.getD j none with
       | none => 0
       | some ev => ((srow.getD j 0 - ev) / drow.getD j 0) ^ 2) := by
  induction erow generalizing srow drow with
  | nil =>
      rw [List.length_nil, List.length_eq_zero] at hs hd
      subst hs; subst hd
      simp [rowCost]
  | cons e es ih =>
      cases srow with
      | nil => simp at hs
      | cons s ss =>
          cases drow with
          | nil => simp at hd
          | cons d ds =>
              simp only [List.length_cons, Nat.succ.injEq] at hs hd
              rw [List.length_cons, Finset.sum_range_succ']
              simp only [List.getD_cons_succ, List.getD_cons_zero]
              rw [rowCost, ih ss ds hs hd]
              cases e
              · simp [cellCost]
              · simp [cellCost]
                ring

theorem calculateCost_eq_costSpec (emat : List (List (Option ℝ))) (sim sdm : Mat)
    (hs : shapeOf sim = shapeOf emat) (hd : shapeOf sdm = shapeOf emat) :
    calculateCost sim emat sdm = costSpec sim emat sdm := by
  induction emat generalizing sim sdm with
  | nil =>
      have h1 : sim = [] := by simpa [shapeOf] using hs
      have h2 : sdm = [] := by simpa [shapeOf] using hd
      subst h1; subst h2
      simp [calculateCost, costSpec]
  | cons erow es ih =>
      cases sim with
      | nil => simp [shapeOf] at hs
      | cons srow ss =>
          cases sdm with
          | nil => simp [shapeOf] at hd
          | cons drow ds =>
              simp only [shapeOf, List.map_cons, List.cons.injEq] at hs hd
              have key : costSpec (srow :: ss) (erow :: es) (drow :: ds)
                  = costSpec ss es ds + rowCost srow erow drow := by
                unfold costSpec
                rw [List.length_cons, Finset.sum_range_succ']
                congr 1
                all_goals first
                  | · rw [rowCost_eq_sum erow srow drow hs.1 hd.1]
                      simp only [List.getD_cons_zero]
                      apply Finset.sum_congr rfl
                      intro j _
                      simp only [getECell, getRCell, List.getD_cons_zero]
                  | · apply Finset.sum_congr rfl
                      intro i _
                      simp only [getECell, getRCell, List.getD_cons_succ]
              rw [calculateCost, key,
                ih ss ds (by simp [shapeOf, hs.2]) (by simp [shapeOf, hd.2])]
              ring

theorem rowCost_set_none (erow : List (Option ℝ)) (srow drow : List ℝ) (j : ℕ) (e : ℝ)
    (hs : srow.length = erow.length) (hd : drow.length = erow.length)
    (hc : erow.getD j none = some e) :
    rowCost srow erow drow =
      rowCost srow (erow.set j none) drow +
        ((srow.getD j 0 - e) / drow.getD j 0) ^ 2 := by
  induction erow generalizing srow drow j with
  | nil => simp at hc
  | cons e0 es ih =>
      cases srow with
      | nil => simp at hs
      | cons s ss =>
          cases drow with
          | nil => simp at hd
          | cons d ds =>
              simp only [List.length_cons, Nat.succ.injEq] at hs hd
              cases j with
              | zero =>
                  rw [List.getD_cons_zero] at hc
                  subst hc
                  simp only [List.set_cons_zero, List.getD_cons_zero]
                  rw [rowCost, rowCost]
                  simp [cellCost]
                  ring
              | succ j' =>
                  rw [List.getD_cons_succ] at hc
                  simp only [List.set_cons_succ, List.getD_cons_succ]
                  rw [rowCost, rowCost, ih ss ds j' hs hd hc]
                  ring

theorem calculateCost_set_none (emat : List (List (Option ℝ))) (sim sdm : Mat)
    (i j : ℕ) (e : ℝ)
    (hs : shapeOf sim = shapeOf emat) (hd : shapeOf sdm = shapeOf emat)
    (hc : getECell emat i j = some e) :
    calculateCost sim emat sdm =
      calculateCost sim (setECell emat i j none) sdm +
        ((getRCell sim i j - e) / getRCell sdm i j) ^ 2 := by
  induction emat generalizing sim sdm i with
  | nil => simp [getECell] at hc
  | cons erow es ih =>
      cases sim with
      | nil => simp [shapeOf] at hs
      | cons srow ss =>
          cases sdm with
          | nil => simp [shapeOf] at hd
          | cons drow ds =>
              simp only [shapeOf, List.map_cons, List.cons.injEq] at hs hd
              cases i with
              | zero =>
                  rw [getECell, List.getD_cons_zero] at hc
                  have hset : setECell (erow :: es) 0 j none =
                      (erow.set j none) :: es := by
                    simp [setECell]
                  rw [hset, calculateCost, calculateCost,
                    rowCost_set_none erow srow drow j e hs.1 hd.1 hc]
                  simp only [getRCell, List.getD_cons_zero]
                  ring
              | succ i' =>
                  rw [getECell, List.getD_cons_succ] at hc
                  have hset : setECell (erow :: es) (i' + 1) j none =
                      erow :: setECell es i' j none := by
                    simp [setECell]
                  rw [hset, calculateCost, calculateCost,
                    ih ss ds i' (by simp [shapeOf, hs.2]) (by simp [shapeOf, hd.2]) hc]
                  simp only [getRCell, List.getD_cons_succ]
                  ring

/-! ### Helper lemmas on the aggregation statistics -/

theorem npMean_reverse (xs : List ℝ) : npMean xs.reverse = npMean xs := by
  simp [npMean, List.sum_reverse]

theorem npStd_reverse (xs : List ℝ) : npStd xs.reverse = npStd xs := by
  unfold npStd
  rw [npMean_reverse, List.map_reverse, npMean_reverse]

theorem npSort_reverse (xs : List ℝ) : npSort xs.reverse = npSort xs := by
  have h1 : List.Perm (npSort xs.reverse) (npSort xs) :=
    ((List.perm_insertionSort _ xs.reverse).trans (List.reverse_perm xs)).trans
      (List.perm_insertionSort _ xs).symm
  exact List.eq_of_perm_of_sorted h1 (List.sorted_insertionSort _ xs.reverse)
    (List.sorted_insertionSort _ xs)

theorem npPercentile_reverse (q : ℝ) (xs : List ℝ) :
    npPercentile q xs.reverse = npPercentile q xs := by
  simp only [npPercentile, npSort_reverse, List.length_reverse]

theorem npMedian_reverse (xs : List ℝ) : npMedian xs.reverse = npMedian xs :=
  npPercentile_reverse 50 xs

theorem mcLoop_of_seed_indep (optL : List ℝ → Mat → OptRes)
    (simF : List ℝ → Mat → Mat) (h : ∀ s₁ s₂ m, optL s₁ m = optL s₂ m)
    (res : OptRes) (noisy : List Mat) :
    mcLoop optL simF res noisy =
      noisy.map (fun m => (optL [] m, simF (optL [] m).x m)) := by
  induction noisy generalizing res with
  | nil => rfl
  | cons nm rest ih =>
      simp only [mcLoop, List.map_cons]
      rw [h res.x [] nm]
      exact congrArg _ (ih _)

theorem headI_reverse_mem {α : Type} [Inhabited α] (l : List α) (hne : l ≠ []) :
    l.reverse.headI ∈ l := by
  cases hr : l.reverse with
  | nil => simp [List.reverse_eq_nil_iff] at hr; exact absurd hr hne
  | cons a t =>
      have : a ∈ l.reverse := by simp [hr]
      simpa using (List.mem_reverse.mp (by simpa [hr] using this))

theorem axis0_reverse (f : List ℝ → ℝ) (rows : List (List ℝ))
    (hrect : ∀ r ∈ rows, r.length = rows.headI.length)
    (hf : ∀ xs : List ℝ, f xs.reverse = f xs) :
    axis0 f rows.reverse = axis0 f rows := by
  rcases eq_or_ne rows [] with rfl | hne
  · rfl
  · unfold axis0
    have hlen : rows.reverse.headI.length = rows.headI.length :=
      hrect _ (headI_reverse_mem rows hne)
    rw [hlen]
    apply List.map_congr_left
    intro j _
    rw [List.map_reverse, hf]

theorem shapeOf_getD {α : Type} (m : List (List α)) (i : ℕ) :
    (shapeOf m).getD i 0 = (m.getD i []).length := by
  simp only [shapeOf, List.getD_eq_getElem?_getD, List.getElem?_map]
  cases m[i]? <;> simp

theorem percentileAxis0_reverse (q : ℝ) (mats : List Mat)
    (hsh : ∀ mM ∈ mats, shapeOf mM = shapeOf mats.headI) :
    percentileAxis0 q mats.reverse = percentileAxis0 q mats := by
  rcases eq_or_ne mats [] with rfl | hne
  · rfl
  · unfold percentileAxis0
    have hshape : shapeOf mats.reverse.headI = shapeOf mats.headI :=
      hsh _ (headI_reverse_mem mats hne)
    have hlen : mats.reverse.headI.length = mats.headI.length := by
      have := congrArg List.length hshape
      simpa [shapeOf] using this
    have hrowlen : ∀ i, (mats.reverse.headI.getD i []).length =
        (mats.headI.getD i []).length := by
      intro i
      rw [← shapeOf_getD, ← shapeOf_getD, hshape]
    rw [hlen]
    apply List.map_congr_left
    intro i _
    rw [hrowlen i]
    apply List.map_congr_left
    intro j _
    rw [List.map_reverse, npPercentile_reverse]

theorem computeParameterStats_reverse (opts : List (List ℝ))
    (stats : List (String × List ℝ))
    (hrect : ∀ r ∈ opts, r.length = opts.headI.length) :
    computeParameterStats opts.reverse stats = computeParameterStats opts stats := by
  unfold computeParameterStats
  rw [axis0_reverse npMean opts hrect npMean_reverse,
    axis0_reverse npStd opts hrect npStd_reverse,
    axis0_reverse npMedian opts hrect npMedian_reverse,
    axis0_reverse (npPercentile (5 / 2)) opts hrect (npPercentile_reverse (5 / 2)),
    axis0_reverse (npPercentile (195 / 2)) opts hrect (npPercentile_reverse (195 / 2))]

/-- The zero-iteration Monte-Carlo run on `mcSt`, fully evaluated. -/
theorem mc_run_empty :
    monteCarloAnalysis mcSeedOpt mcSimFlat [] mcSt = .ok mcStAfter := by
  simp [monteCarloAnalysis, mcSt, mcStAfter, mcLoop, computeParameterStats,
    dictUpdate, axis0, percentileAxis0]
  exact ⟨rfl, rfl⟩

/-! ### Helper lemmas on the default SD dictionary -/

theorem dictUpdate_fresh {β : Type} (d : List (String × β)) (k : String) (v : β)
    (h : k ∉ d.map Prod.fst) : dictUpdate d k v = d ++ [(k, v)] := by
  have hc : (d.map Prod.fst).contains k = false := by
    simp only [List.contains, List.elem_eq_mem, decide_eq_false_iff_not]
    exact h
  unfold dictUpdate
  rw [hc]
  simp

theorem foldl_half_fresh : ∀ (ms : List String) (acc : List (String × ℝ)),
    ms.Nodup → (∀ m ∈ ms, m ∉ acc.map Prod.fst) →
    ms.foldl (fun d c => dictUpdate d c 0.5) acc =
      acc ++ ms.map (fun m => (m, (0.5 : ℝ)))
  | [], acc, _, _ => by simp
  | m :: ms, acc, hnd, hfresh => by
      rw [List.foldl_cons, dictUpdate_fresh acc m 0.5 (hfresh m (by simp))]
      rw [foldl_half_fresh ms (acc ++ [(m, 0.5)]) (List.Nodup.of_cons hnd) ?fresh]
      · simp
      case fresh =>
        intro m' hm'
        simp only [List.map_append, List.mem_append] at *
        rintro (hin | hin)
        · exact hfresh m' (by simp [hm']) (by simpa using hin)
        · simp at hin
          rcases List.nodup_cons.mp hnd with ⟨hnotin, _⟩
          exact hnotin (hin ▸ hm')

theorem defaultSdDict_eval (mets : List String) (hnd : mets.Nodup)
    (hX : "X" ∉ mets) :
    defaultSdDict ("Time" :: "X" :: mets) =
      ("X", (0.2 : ℝ)) :: mets.map (fun m => (m, (0.5 : ℝ))) := by
  unfold defaultSdDict
  rw [show ("Time" :: "X" :: mets).drop 2 = mets from rfl]
  rw [foldl_half_fresh mets [("X", 0.2)] hnd ?fresh]
  · simp
  case fresh =>
    intro m hm
    simp only [List.map_cons, List.map_nil, List.mem_singleton]
    exact fun h => hX (h ▸ hm)

theorem lookupD_const_half : ∀ (mets : List String) (m : String), m ∈ mets →
    lookupD (mets.map (fun x => (x, (0.5 : ℝ)))) m 0 = 0.5
  | [], m, hm => by simp at hm
  | m' :: mets, m, hm => by
      unfold lookupD
      rw [List.map_cons, List.find?_cons]
      by_cases hmm : m' = m
      · simp [hmm]
      · have hne : ((m', (0.5 : ℝ)).1 == m) = false := by
          simp only [beq_eq_false_iff_ne, ne_eq]
          exact hmm
        rw [hne]
        have hm' : m ∈ mets := by
          rcases List.mem_cons.mp hm with h | h
          · exact absurd h.symm hmm
          · exact h
        have := lookupD_const_half mets m hm'
        unfold lookupD at this
        exact this

/-! ### The claims -/

/-- C1: the spec claims the biomass column equals `X0` at each `t < t_lag` and
`X0 * exp(mu * (t - t_lag))` at each `t >= t_lag`.  The code disagrees with
the spec and with its own comments: `len(np.nonzero(time_vector < t_lag))` is
the tuple length 1, so the flat prefix `np.full((0,), x_0)` is empty and the
exponential formula covers every time point.  Shown generally for
`biomassColumn` and evaluated at `X0 = 1`, `mu = 1`, `t_lag = 1`,
`time = [0, 2]`: at `t = 0 < t_lag` the simulated biomass is
`exp (-1) ≠ 1 = X0`. -/
theorem biomass_pre_lag_not_flat :
    (∀ (rexp : ℝ → ℝ) (x0 mu tlag : ℝ) (time : List ℝ),
        biomassColumn rexp x0 mu tlag time =
          time.map (fun t => x0 * rexp (mu * (t - tlag)))) ∧
    DegAndLagSimulate Real.exp [1, 1, 1] [[0], [0]] [0, 2] [] =
      some [[Real.exp (-1), Real.exp 1]] ∧
    Real.exp (-1) ≠ 1 := by
  refine ⟨fun rexp x0 mu tlag time => rfl, ?_, ?_⟩
  · simp [DegAndLagSimulate, biomassColumn, nonzeroTupleLen, fitColumn]
    norm_num
  · have h1 : Real.exp (-1) < 1 := Real.exp_lt_one_iff.mpr (by norm_num)
    intro h
    linarith

/-- C2: the spec claims each metabolite column equals `M0_i` at `t < t_lag`
and the closed-form production/degradation formula afterwards.  As for the
biomass, the pre-lag prefix `np.full((len(idx) - 1,), m_0)` is empty, so the
formula branch covers every time point.  Evaluated at `X0 = 1`, `mu = 1`,
`t_lag = 1`, one metabolite with parameter slots `1` and `0`, `k = 0`,
`time = [0, 2]`: at `t = 0 < t_lag` the simulated metabolite is
`exp (-1) - 1 ≈ -0.63`, which is neither `1` nor `0`, the only two values the
metabolite's `M0` could name. -/
theorem metabolite_pre_lag_not_initial :
    DegAndLagSimulate Real.exp [1, 1, 1, 1, 0] [[0, 0], [0, 0]] [0, 2] [0, 0] =
      some [[Real.exp (-1), Real.exp 1], [Real.exp (-1) - 1, Real.exp 1 - 1]] ∧
    Real.exp (-1) - 1 ≠ 1 ∧ Real.exp (-1) - 1 ≠ 0 := by
  refine ⟨?_, ?_, ?_⟩
  · simp [DegAndLagSimulate, biomassColumn, nonzeroTupleLen, fitColumn, kSlice,
      subLagIdx, subLagIdxFrom, metaboliteColumns, metaboliteColumn, npBroadcast,
      List.range_succ, List.mapM_cons, List.mapM_nil, List.mapM.loop]
    norm_num
  · have h1 : Real.exp (-1) < 1 := Real.exp_lt_one_iff.mpr (by norm_num)
    intro h
    linarith
  · have h1 : Real.exp (-1) < 1 := Real.exp_lt_one_iff.mpr (by norm_num)
    have h2 : 0 < Real.exp (-1) := Real.exp_pos _
    intro h
    linarith

/-- C3: the cost reduction equals the sum, over the cells whose experimental
value is not missing, of `((simulated - experimental) / sd)^2`, and turning
one non-missing experimental cell into a missing one removes exactly that
cell's contribution, whatever the simulated value there. -/
theorem calculateCost_missing_aware (emat : List (List (Option ℝ)))
    (sim sdm : Mat) (i j : ℕ) (e : ℝ)
    (hs : shapeOf sim = shapeOf emat) (hd : shapeOf sdm = shapeOf emat)
    (hc : getECell emat i j = some e) :
    calculateCost sim emat sdm = costSpec sim emat sdm ∧
    calculateCost sim emat sdm =
      calculateCost sim (setECell emat i j none) sdm +
        ((getRCell sim i j - e) / getRCell sdm i j) ^ 2 :=
  ⟨calculateCost_eq_costSpec emat sim sdm hs hd,
   calculateCost_set_none emat sim sdm i j e hs hd hc⟩

/-- C3 witness: a 1-by-2 instance, the cell `(0, 1)` holding `1`. -/
theorem calculateCost_missing_aware_witness :
    shapeOf [[(1 : ℝ), 2]] = shapeOf [[some (0 : ℝ), some 1]] ∧
    shapeOf [[(1 : ℝ), 1]] = shapeOf [[some (0 : ℝ), some 1]] ∧
    getECell [[some (0 : ℝ), some 1]] 0 1 = some 1 ∧
    (calculateCost [[1, 2]] [[some 0, some 1]] [[1, 1]] =
        costSpec [[1, 2]] [[some 0, some 1]] [[1, 1]] ∧
      calculateCost [[1, 2]] [[some 0, some 1]] [[1, 1]] =
        calculateCost [[1, 2]] (setECell [[some 0, some 1]] 0 1 none) [[1, 1]] +
          ((getRCell [[1, 2]] 0 1 - 1) / getRCell [[1, 1]] 0 1) ^ 2) :=
  ⟨rfl, rfl, rfl,
   calculateCost_missing_aware [[some 0, some 1]] [[1, 2]] [[1, 1]] 0 1 1 rfl rfl rfl⟩

/-- C4 counterexample: the iterations are chained — each re-optimization is
seeded with the previous iteration's result — so the same two noise draws
processed in reversed order give different parameter means (2 against 5/2)
with a seed-sensitive local optimizer. -/
theorem monteCarlo_reversed_draws_differ :
    Except.map (fun s => lookupD s.parameterStats "mean" [])
        (monteCarloAnalysis mcSeedOpt mcSimFlat [[[1]], [[2]]] mcSt) ≠
      Except.map (fun s => lookupD s.parameterStats "mean" [])
        (monteCarloAnalysis mcSeedOpt mcSimFlat [[[2]], [[1]]] mcSt) := by
  simp [monteCarloAnalysis, mcSt, mcSeedOpt, mcSimFlat, mcLoop,
    computeParameterStats, dictUpdate, lookupD, axis0, npMean, Except.map,
    List.range_succ]
  norm_num

/-- C4 amended: when the local optimizer's result does not depend on its seed
(and its parameter vectors and re-simulated matrices are uniformly sized),
processing the same noise draws in reversed order leaves the aggregate
parameter statistics and the confidence bands unchanged. -/
theorem monteCarlo_reverse_seed_indep (optL : List ℝ → Mat → OptRes)
    (simF : List ℝ → Mat → Mat) (noisy : List Mat) (st : FitterState)
    (hseed : ∀ s₁ s₂ m, optL s₁ m = optL s₂ m)
    (hlen : ∀ s₁ m₁ s₂ m₂, ((optL s₁ m₁).x).length = ((optL s₂ m₂).x).length)
    (hshape : ∀ p₁ m₁ p₂ m₂, shapeOf (simF p₁ m₁) = shapeOf (simF p₂ m₂)) :
    Except.map (fun s => (s.parameterStats, s.matricesCI))
        (monteCarloAnalysis optL simF noisy.reverse st) =
      Except.map (fun s => (s.parameterStats, s.matricesCI))
        (monteCarloAnalysis optL simF noisy st) := by
  cases hres : st.optimizeResults with
  | none => simp [monteCarloAnalysis, hres]
  | some res =>
      have hloop := mcLoop_of_seed_indep optL simF hseed res
      have e1 : (mcLoop optL simF res noisy.reverse).map
            (fun r : OptRes × Mat => r.2) =
          ((mcLoop optL simF res noisy).map (fun r : OptRes × Mat => r.2)).reverse := by
        rw [hloop, hloop, List.map_map, List.map_map, List.map_reverse]
      have e2 : (mcLoop optL simF res noisy.reverse).map
            (fun r : OptRes × Mat => r.1.x) =
          ((mcLoop optL simF res noisy).map (fun r : OptRes × Mat => r.1.x)).reverse := by
        rw [hloop, hloop, List.map_map, List.map_map, List.map_reverse]
      have hrect : ∀ r ∈ (mcLoop optL simF res noisy).map
            (fun r : OptRes × Mat => r.1.x),
          r.length = ((mcLoop optL simF res noisy).map
            (fun r : OptRes × Mat => r.1.x)).headI.length := by
        rw [hloop]
        intro r hr
        rw [List.map_map] at hr ⊢
        obtain ⟨m, hm, rfl⟩ := List.mem_map.mp hr
        cases noisy with
        | nil => simp at hm
        | cons n0 rest => exact hlen _ _ _ _
      have hsh : ∀ mM ∈ (mcLoop optL simF res noisy).map
            (fun r : OptRes × Mat => r.2),
          shapeOf mM = shapeOf ((mcLoop optL simF res noisy).map
            (fun r : OptRes × Mat => r.2)).headI := by
        rw [hloop]
        intro mM hm
        rw [List.map_map] at hm ⊢
        obtain ⟨m, hmm, rfl⟩ := List.mem_map.mp hm
        cases noisy with
        | nil => simp at hmm
        | cons n0 rest => exact hshape _ _ _ _
      simp only [monteCarloAnalysis, hres, Except.map]
      rw [e1, e2, computeParameterStats_reverse _ _ hrect,
        percentileAxis0_reverse _ _ hsh, percentileAxis0_reverse _ _ hsh]

/-- C4 amended witness: a seed-free optimizer and constant-shape simulate on
one draw; the hypotheses hold by reflexivity. -/
theorem monteCarlo_reverse_seed_indep_witness :
    Except.map (fun s => (s.parameterStats, s.matricesCI))
        (monteCarloAnalysis mcSeedFree mcSimConst ([[[1]]] : List Mat).reverse mcSt) =
      Except.map (fun s => (s.parameterStats, s.matricesCI))
        (monteCarloAnalysis mcSeedFree mcSimConst [[[1]]] mcSt) :=
  monteCarlo_reverse_seed_indep mcSeedFree mcSimConst [[[1]]] mcSt
    (fun _ _ _ => rfl) (fun _ _ _ _ => rfl) (fun _ _ _ _ => rfl)

/-- C5 counterexample: on a state with no primary optimization result,
`khi2_test` does not raise the descriptive sequencing error the claim
requires: it fails with the AttributeError of dereferencing
`self.optimize_results.x`, while `monte_carlo_analysis` raises its guarded
RuntimeError. -/
theorem khi2Test_no_guard :
    khi2Test cdfConst simKFlat stNoFit =
      .error (.attributeError "NoneType object has no attribute x") ∧
    monteCarloAnalysis mcSeedOpt mcSimFlat [] stNoFit =
      .error (.runtimeError
        ("Running Monte Carlo simulation without having run the " ++
         "optimization is impossible as best fit results are needed to " ++
         "generate the initial simulated matrix")) :=
  ⟨rfl, rfl⟩

/-- C5 amended: without a primary optimization result, `monte_carlo_analysis`
raises a synchronous descriptive RuntimeError and performs no computation,
while `khi2_test` — which has no precondition check — fails with an
AttributeError when it dereferences the absent result. -/
theorem no_primary_fit_errors (optL : List ℝ → Mat → OptRes)
    (simF : List ℝ → Mat → Mat) (noisy : List Mat) (cdf : ℝ → ℤ → ℝ)
    (simK : List ℝ → Mat) (st : FitterState) (h : st.optimizeResults = none) :
    monteCarloAnalysis optL simF noisy st = .error (.runtimeError
      ("Running Monte Carlo simulation without having run the " ++
       "optimization is impossible as best fit results are needed to " ++
       "generate the initial simulated matrix")) ∧
    khi2Test cdf simK st = .error (.attributeError
      "NoneType object has no attribute x") := by
  constructor
  · simp [monteCarloAnalysis, h]
  · simp [khi2Test, h]

/-- C5 amended witness: the unfitted state `stNoFit`. -/
theorem no_primary_fit_errors_witness :
    stNoFit.optimizeResults = none ∧
    (monteCarloAnalysis mcSeedFree mcSimConst [] stNoFit = .error (.runtimeError
      ("Running Monte Carlo simulation without having run the " ++
       "optimization is impossible as best fit results are needed to " ++
       "generate the initial simulated matrix")) ∧
     khi2Test cdfConst simKFlat stNoFit = .error (.attributeError
      "NoneType object has no attribute x")) :=
  ⟨rfl, no_primary_fit_errors mcSeedFree mcSimConst [] cdfConst simKFlat stNoFit rfl⟩

/-- C6 counterexample: with 1 non-missing measurement and 3 parameters the
degrees of freedom are `-2 ≤ 0`, yet `khi2_test` returns the ordinary result
with a p-value computed by `chi2.cdf` (here the stand-in value 37/100) and no
degeneracy flag of any kind. -/
theorem khi2Test_degenerate_pvalue :
    Except.map (fun r => (r.degreesOfFreedom, r.pVal))
        (khi2Test cdfConst simKFlat stDegenerate) = .ok (-2, 37 / 100) :=
  rfl

/-- C6 amended: for `degrees_of_freedom ≤ 0` the test does not branch: it
still assembles the ordinary result record, whose p-value is `chi2.cdf`
applied to the cost and the nonpositive degrees of freedom (NaN under scipy),
with no degenerate marker. -/
theorem khi2Test_degenerate_still_computes (cdf : ℝ → ℤ → ℝ)
    (simK : List ℝ → Mat) (st : FitterState) (res : OptRes)
    (h1 : st.optimizeResults = some res)
    (h2 : (countNonMissing st.experimentalMatrix : ℤ) - (st.params.length : ℤ) ≤ 0) :
    khi2Test cdf simK st = .ok
      { khi2Value := calculateCost (simK res.x) st.experimentalMatrix st.sd,
        numberOfMeasurements := countNonMissing st.experimentalMatrix,
        numberOfParams := st.params.length,
        degreesOfFreedom := (countNonMissing st.experimentalMatrix : ℤ) -
          (st.params.length : ℤ),
        pVal := cdf (calculateCost (simK res.x) st.experimentalMatrix st.sd)
          ((countNonMissing st.experimentalMatrix : ℤ) - (st.params.length : ℤ)) } := by
  simp [khi2Test, h1]

/-- C6 amended witness: the degenerate state `stDegenerate`, `dof = -2`. -/
theorem khi2Test_degenerate_still_computes_witness :
    stDegenerate.optimizeResults = some ⟨[1]⟩ ∧
    (countNonMissing stDegenerate.experimentalMatrix : ℤ) -
      (stDegenerate.params.length : ℤ) ≤ 0 ∧
    khi2Test cdfConst simKFlat stDegenerate = .ok
      { khi2Value := calculateCost (simKFlat [1]) stDegenerate.experimentalMatrix
          stDegenerate.sd,
        numberOfMeasurements := countNonMissing stDegenerate.experimentalMatrix,
        numberOfParams := stDegenerate.params.length,
        degreesOfFreedom := (countNonMissing stDegenerate.experimentalMatrix : ℤ) -
          (stDegenerate.params.length : ℤ),
        pVal := cdfConst (calculateCost (simKFlat [1]) stDegenerate.experimentalMatrix
            stDegenerate.sd)
          ((countNonMissing stDegenerate.experimentalMatrix : ℤ) -
            (stDegenerate.params.length : ℤ)) } :=
  ⟨rfl, by decide,
   khi2Test_degenerate_still_computes cdfConst simKFlat stDegenerate ⟨[1]⟩ rfl
     (by decide)⟩

/-- C7: `get_params` appends, for each metabolite, first `{m}_M0` then
`{m}_q` — initial concentration before production rate, not the claimed
(production rate, initial concentration) order — and the bounds mapping
matches that list; but `simulate` reads slot `2i + 1` as the production rate
`q` and slot `2i + 2` as `M0`.  Evaluated with one metabolite and parameter
slots `5` (named `Glc_M0`) and `7` (named `Glc_q`): the simulated metabolite
is `5 * (exp(...) - 1) + 7`, i.e. the slot named `Glc_M0` multiplies the
production term, and the value differs from the one the name list's order
would produce. -/
theorem get_params_simulate_slot_mismatch :
    parametersToEstimate ["Glc"] = ["X_0", "mu", "t_lag", "Glc_M0", "Glc_q"] ∧
    (degAndLagBounds 10 ["Glc"]).map Prod.fst = parametersToEstimate ["Glc"] ∧
    DegAndLagSimulate Real.exp [1, 1, 1, 5, 7] [[0, 0], [0, 0]] [0, 2] [0, 0] =
      some [[Real.exp (-1), Real.exp 1],
        [5 * (Real.exp (-1) - 1) + 7, 5 * (Real.exp 1 - 1) + 7]] ∧
    5 * (Real.exp 1 - 1) + 7 ≠ 7 * (Real.exp 1 - 1) + 5 := by
  refine ⟨by decide, by simp [degAndLagBounds, parametersToEstimate], ?_, ?_⟩
  · simp [DegAndLagSimulate, biomassColumn, nonzeroTupleLen, fitColumn, kSlice,
      subLagIdx, subLagIdxFrom, metaboliteColumns, metaboliteColumn, npBroadcast,
      List.range_succ, List.mapM_cons, List.mapM_nil, List.mapM.loop]
    norm_num
  · have h1 : Real.exp 1 > 2.7182818283 := Real.exp_one_gt_d9
    intro h
    nlinarith

/-- C9: `DegAndLag.simulate` uses its data-matrix argument only through
`np.empty_like`, i.e. through its shape: two noisy matrices of the same shape
produce the same simulated matrix for the same parameters, time vector and
degradation constants — the matrix recorded into the Monte-Carlo ensemble
never depends on the noisy values. -/
theorem simulate_shape_only (rexp : ℝ → ℝ) (params time deg : List ℝ)
    (dm dm' : Mat) (hr : dm.length = dm'.length)
    (hc : dm.headI.length = dm'.headI.length) :
    DegAndLagSimulate rexp params dm time deg =
      DegAndLagSimulate rexp params dm' time deg := by
  unfold DegAndLagSimulate
  rw [hr, hc]

/-- C9 witness: two different 2-by-1 noisy matrices. -/
theorem simulate_shape_only_witness :
    ([[(1 : ℝ)], [2]] : Mat).length = ([[(5 : ℝ)], [6]] : Mat).length ∧
    ([[(1 : ℝ)], [2]] : Mat).headI.length = ([[(5 : ℝ)], [6]] : Mat).headI.length ∧
    DegAndLagSimulate Real.exp [1, 1, 1] [[1], [2]] [0, 2] [] =
      DegAndLagSimulate Real.exp [1, 1, 1] [[5], [6]] [0, 2] [] :=
  ⟨rfl, rfl,
   simulate_shape_only Real.exp [1, 1, 1] [0, 2] [] [[1], [2]] [[5], [6]] rfl rfl⟩

/-- C10: a Monte-Carlo run that returns leaves the primary optimization
result, the primary simulated matrix, the experimental matrix and the SD
matrix exactly as they were; the returned state is the input state with only
the parameter-statistics and confidence-band fields rewritten. -/
theorem monteCarlo_frame (optL : List ℝ → Mat → OptRes)
    (simF : List ℝ → Mat → Mat) (noisy : List Mat) (st st' : FitterState)
    (h : monteCarloAnalysis optL simF noisy st = .ok st') :
    st'.optimizeResults = st.optimizeResults ∧
    st'.simulatedMatrix = st.simulatedMatrix ∧
    st'.experimentalMatrix = st.experimentalMatrix ∧
    st'.sd = st.sd ∧
    st' = { st with parameterStats := st'.parameterStats,
                    matricesCI := st'.matricesCI } := by
  cases hres : st.optimizeResults with
  | none => simp [monteCarloAnalysis, hres] at h
  | some res =>
      simp only [monteCarloAnalysis, hres, Except.ok.injEq] at h
      subst h
      exact ⟨rfl, rfl, rfl, rfl, rfl⟩

/-- C10 witness: the zero-iteration run on `mcSt`. -/
theorem monteCarlo_frame_witness :
    monteCarloAnalysis mcSeedOpt mcSimFlat [] mcSt = .ok mcStAfter ∧
    (mcStAfter.optimizeResults = mcSt.optimizeResults ∧
     mcStAfter.simulatedMatrix = mcSt.simulatedMatrix ∧
     mcStAfter.experimentalMatrix = mcSt.experimentalMatrix ∧
     mcStAfter.sd = mcSt.sd ∧
     mcStAfter = { mcSt with parameterStats := mcStAfter.parameterStats,
                             matricesCI := mcStAfter.matricesCI }) :=
  ⟨mc_run_empty,
   monteCarlo_frame mcSeedOpt mcSimFlat [] mcSt mcStAfter mc_run_empty⟩

/-- C8 counterexample: with the biomass column named `Biomass` instead of
`X`, the default SD construction fails with a KeyError on the hard-coded
dict key `X` instead of producing the default matrix. -/
theorem initializeSdMatrixDefault_other_biomass_name :
    initializeSdMatrixDefault ["Time", "Biomass", "Glc"] ["Biomass", "Glc"] 3 2 =
      .error (.keyError "The key X is not part of the data headers") :=
  rfl

/-- C8 amended: when the biomass column is named exactly `X` (the hard-coded
default key), an absent SD specification yields the matrix with 0.2 in the
biomass column and 0.5 in every other column, in every row; any other biomass
name makes the construction fail with a KeyError instead. -/
theorem initializeSdMatrixDefault_named_X (mets : List String) (nrows : ℕ)
    (hnd : mets.Nodup) (hX : "X" ∉ mets) :
    initializeSdMatrixDefault ("Time" :: "X" :: mets) ("X" :: mets) nrows
        (1 + mets.length) =
      .ok (List.replicate nrows ((0.2 : ℝ) :: mets.map (fun _ => (0.5 : ℝ)))) := by
  unfold initializeSdMatrixDefault
  rw [defaultSdDict_eval mets hnd hX]
  unfold sdDictToMatrix
  have hkeys : ((("X", (0.2 : ℝ)) :: mets.map (fun m => (m, (0.5 : ℝ)))).map Prod.fst)
      = "X" :: mets := by
    simp only [List.map_cons, List.map_map]
    rw [show (Prod.fst ∘ fun m : String => (m, (0.5 : ℝ))) = id from rfl, List.map_id]
  rw [hkeys]
  have h1 : List.find? (fun k => !(("X" :: mets).contains k)) ("X" :: mets) = none := by
    rw [List.find?_eq_none]
    intro x hx
    simp only [Bool.not_eq_true, Bool.not_eq_true']
    simp [List.contains, List.elem_eq_mem, hx]
  rw [h1]
  have hhead : lookupD (("X", (0.2 : ℝ)) :: mets.map (fun m => (m, (0.5 : ℝ)))) "X" 0
      = 0.2 := by
    simp [lookupD]
  have htail : mets.map
      (fun n => lookupD (("X", (0.2 : ℝ)) :: mets.map (fun m => (m, (0.5 : ℝ)))) n 0)
      = mets.map (fun _ => (0.5 : ℝ)) := by
    apply List.map_congr_left
    intro n hn
    have hne : ("X" == n) = false := by
      simp only [beq_eq_false_iff_ne, ne_eq]
      exact fun h => hX (h ▸ hn)
    unfold lookupD
    rw [List.find?_cons]
    simp only [hne]
    have := lookupD_const_half mets n hn
    unfold lookupD at this
    exact this
  rw [List.map_cons, hhead, htail]
  have hlen : ((0.2 : ℝ) :: mets.map (fun _ => (0.5 : ℝ))).length = 1 + mets.length := by
    simp [Nat.add_comm]
  simp only [Except.bind, hlen, if_pos]

/-- C8 amended witness: columns `Time, X, Glc`, two data rows. -/
theorem initializeSdMatrixDefault_named_X_witness :
    (["Glc"] : List String).Nodup ∧ "X" ∉ (["Glc"] : List String) ∧
    initializeSdMatrixDefault ["Time", "X", "Glc"] ["X", "Glc"] 2 2 =
      .ok (List.replicate 2 ((0.2 : ℝ) :: (["Glc"] : List String).map
        (fun _ => (0.5 : ℝ)))) :=
  ⟨by decide, by decide,
   initializeSdMatrixDefault_named_X ["Glc"] 2 (by decide) (by decide)⟩

end PhysioFit
